import Mathlib

/-!
# Verification of the periodized Profit & Loss report engine

Shallow embedding of the P&L report page (`profitData` / `statistics` memos)
of the stock-client repository.  Instants are modelled at minute resolution
in a fixed-offset timezone over the proleptic Gregorian calendar (the
calendar JS `Date` and date-fns implement); monetary values are modelled as
exact rationals (the source stores decimal strings and converts with
`parseFloat`); `toFixed(2)` is modelled as rounding half-up to a multiple
of 1/100.
-/

namespace StockClient

/-! ## Calendar model (JS `Date` / date-fns over the proleptic Gregorian calendar) -/

/-- Gregorian leap-year test. -/
def isLeap (y : ℤ) : Bool := decide (y % 4 = 0 ∧ (y % 100 ≠ 0 ∨ y % 400 = 0))

/-- Number of days of month `m` (1–12) of year `y`. -/
def daysInMonth (y m : ℤ) : ℤ :=
  if m = 2 then (if isLeap y then 29 else 28)
  else if m = 4 ∨ m = 6 ∨ m = 9 ∨ m = 11 then 30 else 31

/-- Civil day number of the Gregorian date `y-m-d` (1970-01-01 is day 0).
The formula is affine in `d`, which matches how JS `Date` normalizes an
out-of-range day-of-month field. -/
def daysFromCivil (y m d : ℤ) : ℤ :=
  let yy := if m ≤ 2 then y - 1 else y
  365 * yy + yy / 4 - yy / 100 + yy / 400 + (153 * ((m + 9) % 12) + 2) / 5 + d - 719469

/-- A civil datetime, as JS `Date` presents one through its field accessors
(month is 1-based here; JS `getMonth()` is this minus 1). -/
structure DateTime where
  year : ℤ
  month : ℤ
  day : ℤ
  hour : ℤ
  minute : ℤ
deriving DecidableEq

/-- The instant of a civil datetime, in minutes since 1970-01-01 00:00.
Affine in every field, which matches JS `Date` field-overflow normalization. -/
def toMinutes (t : DateTime) : ℤ :=
  1440 * daysFromCivil t.year t.month t.day + 60 * t.hour + t.minute

/-- The datetime's fields are in range (a normalized JS `Date`). -/
def Valid (t : DateTime) : Prop :=
  1 ≤ t.month ∧ t.month ≤ 12 ∧ 1 ≤ t.day ∧ t.day ≤ daysInMonth t.year t.month ∧
    0 ≤ t.hour ∧ t.hour < 24 ∧ 0 ≤ t.minute ∧ t.minute < 60

instance (t : DateTime) : Decidable (Valid t) := by unfold Valid; infer_instance

/-- date-fns `startOfDay`. -/
def startOfDay (t : DateTime) : DateTime := { t with hour := 0, minute := 0 }

/-- date-fns `startOfMonth`. -/
def startOfMonth (t : DateTime) : DateTime := { t with day := 1, hour := 0, minute := 0 }

/-- date-fns `startOfYear`. -/
def startOfYear (t : DateTime) : DateTime := { t with month := 1, day := 1, hour := 0, minute := 0 }

/-- Step one calendar day back (borrowing across month and year boundaries). -/
def decDay (t : DateTime) : DateTime :=
  if 1 < t.day then { t with day := t.day - 1 }
  else if 1 < t.month then { t with month := t.month - 1, day := daysInMonth t.year (t.month - 1) }
  else { t with year := t.year - 1, month := 12, day := 31 }

/-- date-fns `subDays` (calendar day subtraction). -/
def subDays (t : DateTime) : ℕ → DateTime
  | 0 => t
  | n + 1 => decDay (subDays t n)

/-- date-fns `addMonths`: shift the (year, month) index, clamping the
day-of-month to the target month's length. -/
def addMonths (t : DateTime) (k : ℤ) : DateTime :=
  let idx := 12 * t.year + (t.month - 1) + k
  let y := idx / 12
  let m := idx % 12 + 1
  { t with year := y, month := m, day := min t.day (daysInMonth y m) }

/-- date-fns `subMonths`. -/
def subMonths (t : DateTime) (k : ℕ) : DateTime := addMonths t (-(k : ℤ))

/-- date-fns `addYears`: shift the year, clamping Feb 29 to Feb 28. -/
def addYears (t : DateTime) (k : ℤ) : DateTime :=
  { t with year := t.year + k, day := min t.day (daysInMonth (t.year + k) t.month) }

/-- date-fns `subYears`. -/
def subYears (t : DateTime) (k : ℕ) : DateTime := addYears t (-(k : ℤ))

/-- JS `date.setHours(h, 0, 0, 0)`: overwrite the hour field (possibly out of
range; `toMinutes` is affine, as JS normalization is) and zero the rest. -/
def jsSetHours (t : DateTime) (h : ℤ) : DateTime := { t with hour := h, minute := 0 }

/-- JS `date.setHours(date.getHours() + 1)`. -/
def jsAddHour (t : DateTime) : DateTime := { t with hour := t.hour + 1 }

/-- JS `date.setDate(date.getDate() + 1)`. -/
def jsAddDate (t : DateTime) : DateTime := { t with day := t.day + 1 }

/-- JS `date.setMonth(date.getMonth() + 1)`: advance the (year, month) index
by one; JS does not clamp the day field (it overflows affinely). -/
def jsAddMonth (t : DateTime) : DateTime :=
  let idx := 12 * t.year + t.month
  { t with year := idx / 12, month := idx % 12 + 1 }

/-- JS `date.setFullYear(date.getFullYear() + 1)`. -/
def jsAddYear (t : DateTime) : DateTime := { t with year := t.year + 1 }

/-! ## Time ranges, windows and labels -/

/-- The granularity selector (`type TimeRange` in the source). -/
inductive TimeRange where
  | hourly | daily | monthly | yearly
deriving DecidableEq

/-- The data a window's display label (`format(period, formatString)`)
exhibits: `"HH:00"` shows the hour of day, `"MMM dd"` month and day,
`"MMM yyyy"` month and year, `"yyyy"` the year.  The string rendering is
injective in these fields, so we keep the fields themselves. -/
inductive Label where
  | hourly (h : ℤ)
  | daily (month day : ℤ)
  | monthly (month year : ℤ)
  | yearly (year : ℤ)
deriving DecidableEq

/-- The `periods` array: for each granularity the loop
`for (i = N-1; i >= 0; i--) periods.push(...)` of the source. -/
def periodsFor (r : TimeRange) (now : DateTime) : List DateTime :=
  match r with
  | .hourly => (List.range 24).map fun j : ℕ => jsSetHours now (now.hour - (23 - (j : ℤ)))
  | .daily => (List.range 30).map fun j => subDays (startOfDay now) (29 - j)
  | .monthly => (List.range 12).map fun j => subMonths (startOfMonth now) (11 - j)
  | .yearly => (List.range 5).map fun j => subYears (startOfYear now) (4 - j)

/-- The `nextPeriod` computation (switch on `timeRange` in the source). -/
def nextPeriod (r : TimeRange) (p : DateTime) : DateTime :=
  match r with
  | .hourly => jsAddHour p
  | .daily => jsAddDate p
  | .monthly => jsAddMonth p
  | .yearly => jsAddYear p

/-- `format(period, formatString)`: the label of a period.  A JS `Date` is
normalized, so the displayed hour of an hourly period is its hour field
mod 24; the other granularities' periods carry in-range fields. -/
def labelOf (r : TimeRange) (p : DateTime) : Label :=
  match r with
  | .hourly => .hourly (p.hour % 24)
  | .daily => .daily p.month p.day
  | .monthly => .monthly p.month p.year
  | .yearly => .yearly p.year

/-! ## Monetary rounding (`parseFloat(x.toFixed(2))`) -/

/-- Round a rational to the nearest integer, half up (`⌊x + 1/2⌋`,
i.e. Mathlib's `round`). -/
def rnd (x : ℚ) : ℤ := ⌊x + 1 / 2⌋

/-- `parseFloat(x.toFixed(2))`: round to 2 decimal places. -/
def round2 (q : ℚ) : ℚ := ((rnd (q * 100) : ℤ) : ℚ) / 100

/-- `q` is a whole number of cents (an integer multiple of `1/100`). -/
def Cent (q : ℚ) : Prop := ∃ n : ℤ, q = (n : ℚ) / 100

/-- The instant (in minutes) of the start of the month with linear month
index `μ` (index `12·year + month − 1`). -/
def monthStartMin (μ : ℤ) : ℤ := 1440 * daysFromCivil (μ / 12) (μ % 12 + 1) 1

/-- The number of windows per granularity (24 / 30 / 12 / 5). -/
def periodCount (r : TimeRange) : ℕ :=
  match r with
  | .hourly => 24
  | .daily => 30
  | .monthly => 12
  | .yearly => 5

/-- Mathematical form of the `j`-th window's start instant (in minutes) for
granularity `r` anchored at `now`; the `j`-th window is
`[wstart r now j, wstart r now (j+1))`. -/
def wstart (r : TimeRange) (now : DateTime) (j : ℕ) : ℤ :=
  match r with
  | .hourly => 1440 * daysFromCivil now.year now.month now.day + 60 * (now.hour - 23 + (j : ℤ))
  | .daily => toMinutes (startOfDay now) - 1440 * (29 - (j : ℤ))
  | .monthly => monthStartMin (12 * now.year + (now.month - 1) - 11 + (j : ℤ))
  | .yearly => 1440 * daysFromCivil (now.year - 4 + (j : ℤ)) 1 1

/-! ## Data model (`@shared/schema` as consumed by the page) -/

/-- A catalog item (`Product`): `costPrice` is a nullable decimal string in
the schema, `stockQuantity` a non-negative integer. -/
structure Product where
  id : String
  costPrice : Option ℚ
  stockQuantity : ℕ
deriving DecidableEq

/-- An order line (`OrderItem`), restricted to the fields the page reads. -/
structure OrderItem where
  productId : String
  quantity : ℕ
deriving DecidableEq

/-- `OrderWithItems`: creation instant (minutes), decimal `totalAmount`,
embedded line items. -/
structure OrderWithItems where
  createdAt : ℤ
  totalAmount : ℚ
  items : List OrderItem
deriving DecidableEq

/-- A return line (`ReturnItem`), restricted to the fields the page reads. -/
structure ReturnItem where
  productId : String
  quantity : ℕ
deriving DecidableEq

/-- `ReturnWithItems`: creation instant, nullable `refundAmount`, embedded
line items. -/
structure ReturnWithItems where
  createdAt : ℤ
  refundAmount : Option ℚ
  items : List ReturnItem
deriving DecidableEq

/-- `transactionType` enumeration of the `accounts` schema. -/
inductive TransactionType where
  | sale | purchase | ret | refund | adjustment
deriving DecidableEq

/-- A ledger transaction (`Account`), restricted to the fields the page
reads: instant, category and signed decimal `profit`. -/
structure Account where
  transactionDate : ℤ
  transactionType : TransactionType
  profit : ℚ
deriving DecidableEq

/-- `productMap = new Map(products.map(p => [p.id, p]))`; a JS `Map` keeps
the last binding of a duplicated key, hence the `reverse`. -/
def productMap (products : List Product) (pid : String) : Option Product :=
  products.reverse.find? fun p => p.id = pid

/-- `product?.costPrice ? parseFloat(...) : 0`: the unit cost of an item,
zero when the item is absent from the catalog or its cost basis is unset. -/
def costOf (products : List Product) (pid : String) : ℚ :=
  match productMap products pid with
  | none => 0
  | some p => p.costPrice.getD 0

/-! ## The aggregation core (`profitData` memo) -/

/-- `interface ProfitData` of the source. -/
structure ProfitData where
  period : Label
  purchaseProfit : ℚ
  purchaseLoss : ℚ
  salesProfit : ℚ
  salesLoss : ℚ
  totalProfit : ℚ
  totalLoss : ℚ
  revenue : ℚ
  cost : ℚ
  orders : ℕ
  returns : ℕ
deriving DecidableEq

/-- The body of `periods.map(period => ...)`: one window's `ProfitData`,
for the half-open window `[start, stop)` (instants in minutes). -/
def periodResult (products : List Product) (orders : List OrderWithItems)
    (returns : List ReturnWithItems) (accounts : List Account)
    (start stop : ℤ) (lab : Label) : ProfitData :=
  let periodOrders := orders.filter fun o =>
    decide (start ≤ o.createdAt ∧ o.createdAt < stop)
  let periodReturns := returns.filter fun r =>
    decide (start ≤ r.createdAt ∧ r.createdAt < stop)
  let periodPurchases := accounts.filter fun a =>
    decide (a.transactionType = .purchase ∧ start ≤ a.transactionDate ∧ a.transactionDate < stop)
  -- purchase profit / loss accumulation over the filtered ledger entries
  let purchaseProfit := (periodPurchases.map fun a => if 0 < a.profit then a.profit else 0).sum
  let purchaseLoss := (periodPurchases.map fun a => if a.profit < 0 then -a.profit else 0).sum
  -- gross sales revenue
  let revenue := (periodOrders.map fun o => o.totalAmount).sum
  -- cost of goods sold
  let cogs := (periodOrders.map fun o =>
    (o.items.map fun it => costOf products it.productId * (it.quantity : ℚ)).sum).sum
  -- gross sales profit / loss split (overwritten below unless the net
  -- difference is exactly zero, in which case these values survive)
  let salesDifference := revenue - cogs
  let grossSalesProfit := if 0 < salesDifference then salesDifference else 0
  let grossSalesLoss := if salesDifference < 0 then -salesDifference else 0
  -- refunded amounts (absent refund amount contributes zero)
  let refundAmount := (periodReturns.map fun r => r.refundAmount.getD 0).sum
  -- cost of returned goods
  let returnedCost := (periodReturns.map fun r =>
    (r.items.map fun it => costOf products it.productId * (it.quantity : ℚ)).sum).sum
  -- net figures and the final split
  let netRevenue := revenue - refundAmount
  let netCost := cogs - returnedCost
  let netSalesDifference := netRevenue - netCost
  let salesProfit :=
    if 0 < netSalesDifference then netSalesDifference
    else if netSalesDifference < 0 then 0 else grossSalesProfit
  let salesLoss :=
    if 0 < netSalesDifference then 0
    else if netSalesDifference < 0 then -netSalesDifference else grossSalesLoss
  let totalProfit := purchaseProfit + salesProfit
  let totalLoss := purchaseLoss + salesLoss
  { period := lab
    purchaseProfit := round2 purchaseProfit
    purchaseLoss := round2 purchaseLoss
    salesProfit := round2 salesProfit
    salesLoss := round2 salesLoss
    totalProfit := round2 totalProfit
    totalLoss := round2 totalLoss
    revenue := round2 netRevenue
    cost := round2 netCost
    orders := periodOrders.length
    returns := periodReturns.length }

/-- The `profitData` memo: the per-window results for a granularity and a
reference instant `now`. -/
def profitData (rng : TimeRange) (now : DateTime) (products : List Product)
    (orders : List OrderWithItems) (returns : List ReturnWithItems)
    (accounts : List Account) : List ProfitData :=
  (periodsFor rng now).map fun p =>
    periodResult products orders returns accounts
      (toMinutes p) (toMinutes (nextPeriod rng p)) (labelOf rng p)

/-! ## The summary rollup (`statistics` memo) -/

/-- The record returned by the `statistics` memo. -/
structure Statistics where
  totalPurchaseProfit : ℚ
  totalPurchaseLoss : ℚ
  totalSalesProfit : ℚ
  totalSalesLoss : ℚ
  totalProfit : ℚ
  totalLoss : ℚ
  netProfit : ℚ
  totalRevenue : ℚ
  totalCost : ℚ
  profitMargin : ℚ
  inventoryValue : ℚ
  totalOrders : ℕ
  totalReturns : ℕ
  returnRate : ℚ
deriving DecidableEq

/-- The `statistics` memo: headline totals over the per-window results and
the catalog snapshot. -/
def statistics (pd : List ProfitData) (products : List Product) : Statistics :=
  let totalPurchaseProfit := (pd.map fun d => d.purchaseProfit).sum
  let totalPurchaseLoss := (pd.map fun d => d.purchaseLoss).sum
  let totalSalesProfit := (pd.map fun d => d.salesProfit).sum
  let totalSalesLoss := (pd.map fun d => d.salesLoss).sum
  let totalProfit := totalPurchaseProfit + totalSalesProfit
  let totalLoss := totalPurchaseLoss + totalSalesLoss
  let netProfit := totalProfit - totalLoss
  let totalRevenue := (pd.map fun d => d.revenue).sum
  let totalCost := (pd.map fun d => d.cost).sum
  let profitMargin := if 0 < totalRevenue then netProfit / totalRevenue * 100 else 0
  let inventoryValue := (products.map fun p => p.costPrice.getD 0 * (p.stockQuantity : ℚ)).sum
  let totalOrders : ℕ := (pd.map fun d => d.orders).sum
  let totalReturns : ℕ := (pd.map fun d => d.returns).sum
  let returnRate := if 0 < totalOrders then (totalReturns : ℚ) / (totalOrders : ℚ) * 100 else 0
  { totalPurchaseProfit := totalPurchaseProfit
    totalPurchaseLoss := totalPurchaseLoss
    totalSalesProfit := totalSalesProfit
    totalSalesLoss := totalSalesLoss
    totalProfit := totalProfit
    totalLoss := totalLoss
    netProfit := netProfit
    totalRevenue := totalRevenue
    totalCost := totalCost
    profitMargin := profitMargin
    inventoryValue := inventoryValue
    totalOrders := totalOrders
    totalReturns := totalReturns
    returnRate := returnRate }

/-! ## Basic rounding facts -/

theorem rnd_eq_round (x : ℚ) : rnd x = round x := (round_eq x).symm

theorem round2_zero : round2 0 = 0 := by norm_num [round2, rnd]

theorem Cent.zero : Cent 0 := ⟨0, by norm_num⟩

theorem Cent.add {a b : ℚ} (ha : Cent a) (hb : Cent b) : Cent (a + b) := by
  obtain ⟨m, rfl⟩ := ha; obtain ⟨n, rfl⟩ := hb
  exact ⟨m + n, by push_cast; ring⟩

theorem Cent.neg {a : ℚ} (ha : Cent a) : Cent (-a) := by
  obtain ⟨m, rfl⟩ := ha
  exact ⟨-m, by push_cast; ring⟩

theorem Cent.sub {a b : ℚ} (ha : Cent a) (hb : Cent b) : Cent (a - b) :=
  (sub_eq_add_neg a b) ▸ ha.add hb.neg

theorem Cent.natMul {a : ℚ} (ha : Cent a) (k : ℕ) : Cent (a * (k : ℚ)) := by
  obtain ⟨m, rfl⟩ := ha
  exact ⟨m * k, by push_cast; ring⟩

theorem Cent.listSum {l : List ℚ} (h : ∀ x ∈ l, Cent x) : Cent l.sum := by
  induction l with
  | nil => simpa using Cent.zero
  | cons a t ih =>
      rw [List.sum_cons]
      exact (h a (List.mem_cons_self a t)).add
        (ih fun x hx => h x (List.mem_cons_of_mem a hx))

theorem Cent.ite {a b : ℚ} (c : Prop) [Decidable c] (ha : Cent a) (hb : Cent b) :
    Cent (if c then a else b) := by
  by_cases h : c <;> simp [h, ha, hb]

/-- Rounding to 2 decimals is the identity on whole-cent values. -/
theorem round2_cent {q : ℚ} (h : Cent q) : round2 q = q := by
  obtain ⟨n, rfl⟩ := h
  rw [round2, rnd_eq_round]
  have h100 : ((n : ℚ) / 100) * 100 = (n : ℚ) := by field_simp
  rw [h100, round_intCast]

/-! ## Claim theorems: cost-basis and refund defaults (C7) -/

/-- C7: the cost-basis lookup returns zero when the identifier is absent
from the catalog or the item's cost basis is unset, hence each such order
or return line contributes zero to COGS / returned cost; a return whose
refund amount is absent contributes zero to the refund total.  (The model
is total, so no failure is possible.) -/
theorem C7_missing_cost_and_refund_default_to_zero :
    (∀ (products : List Product) (pid : String),
        productMap products pid = none → costOf products pid = 0) ∧
    (∀ (products : List Product) (pid : String) (p : Product),
        productMap products pid = some p → p.costPrice = none →
          costOf products pid = 0) ∧
    (∀ (products : List Product) (pid : String) (q : ℕ),
        (productMap products pid = none ∨
          ∃ p, productMap products pid = some p ∧ p.costPrice = none) →
          costOf products pid * (q : ℚ) = 0) ∧
    (∀ r : ReturnWithItems, r.refundAmount = none → r.refundAmount.getD 0 = 0) := by
  refine ⟨?_, ?_, ?_, ?_⟩
  · intro products pid h
    simp [costOf, h]
  · intro products pid p hp hc
    simp [costOf, hp, hc]
  · intro products pid q h
    rcases h with h | ⟨p, hp, hc⟩
    · simp [costOf, h]
    · simp [costOf, hp, hc]
  · intro r h
    simp [h]

/-- Witness for C7 at concrete inputs. -/
theorem C7_missing_cost_and_refund_default_to_zero_witness :
    costOf [⟨"a", some 3, 1⟩] "b" = 0 ∧
    costOf [⟨"a", none, 1⟩] "a" = 0 ∧
    costOf [⟨"a", none, 1⟩] "a" * ((2 : ℕ) : ℚ) = 0 ∧
    (⟨0, none, []⟩ : ReturnWithItems).refundAmount.getD 0 = 0 := by
  refine ⟨?_, ?_, ?_, ?_⟩
  · exact C7_missing_cost_and_refund_default_to_zero.1 [⟨"a", some 3, 1⟩] "b"
      (by simp [productMap])
  · exact C7_missing_cost_and_refund_default_to_zero.2.1 [⟨"a", none, 1⟩] "a" ⟨"a", none, 1⟩
      (by simp [productMap]) rfl
  · exact C7_missing_cost_and_refund_default_to_zero.2.2.1 [⟨"a", none, 1⟩] "a" 2
      (Or.inr ⟨⟨"a", none, 1⟩, by simp [productMap], rfl⟩)
  · exact C7_missing_cost_and_refund_default_to_zero.2.2.2 ⟨0, none, []⟩ rfl

/-! ## Claim theorems: summary guards (C8) -/

/-- C8: `profitMargin` is `netProfit / totalRevenue × 100` when
`totalRevenue > 0` and `0` otherwise (in particular whenever total revenue
is zero), and `returnRate` is `totalReturns / totalOrders × 100` when
`totalOrders > 0` and `0` otherwise; the guards make division by zero
impossible. -/
theorem C8_margin_and_return_rate_guards (pd : List ProfitData) (products : List Product) :
    ((statistics pd products).profitMargin =
      if 0 < (statistics pd products).totalRevenue then
        (statistics pd products).netProfit / (statistics pd products).totalRevenue * 100
      else 0) ∧
    ((statistics pd products).totalRevenue = 0 → (statistics pd products).profitMargin = 0) ∧
    ((statistics pd products).returnRate =
      if 0 < (statistics pd products).totalOrders then
        ((statistics pd products).totalReturns : ℚ) / ((statistics pd products).totalOrders : ℚ) * 100
      else 0) := by
  refine ⟨by simp [statistics], ?_, by simp [statistics]⟩
  intro h
  simp only [statistics] at h ⊢
  simp only [h]
  norm_num

/-- Witness for C8 at a concrete input (empty report). -/
theorem C8_margin_and_return_rate_guards_witness :
    (statistics [] []).profitMargin = 0 := by
  exact (C8_margin_and_return_rate_guards [] []).2.1 (by simp [statistics])

/-! ## The sales-side split (C1, C2) -/

/-- The final sales split assigns zero to at least one of the two sides:
the net override writes `(netD, 0)` or `(0, |netD|)`, and when the net
difference is zero the surviving gross split is itself one-sided. -/
theorem periodResult_sales_one_sided (products : List Product) (orders : List OrderWithItems)
    (returns : List ReturnWithItems) (accounts : List Account) (start stop : ℤ) (lab : Label) :
    (periodResult products orders returns accounts start stop lab).salesProfit = 0 ∨
      (periodResult products orders returns accounts start stop lab).salesLoss = 0 := by
  simp only [periodResult]
  split_ifs <;>
    first
      | (left; exact round2_zero)
      | (right; exact round2_zero)
      | (exfalso; linarith)

/-- C1: the claim fails on the code, which is a slip: when the net sales
difference is exactly zero the net override block (`if > 0 … else if < 0 …`
with no final else) leaves the provisional gross split in place.  At
Scenario B (order of 100.00 with two units of item X costing 10.00 each,
plus a return in the same window refunding 100.00 for the same two units)
the surfaced window has net revenue 0 and net cost 0 but
`salesProfit = 80` and `salesLoss = 0`, where the spec requires both 0. -/
theorem C1_net_zero_window_keeps_gross_split :
    ∃ d ∈ profitData TimeRange.daily ⟨1970, 1, 1, 12, 30⟩
        [⟨"X", some 10, 0⟩]
        [⟨10, 100, [⟨"X", 2⟩]⟩]
        [⟨20, some 100, [⟨"X", 2⟩]⟩]
        [],
      d.revenue = 0 ∧ d.cost = 0 ∧ d.salesProfit = 80 ∧ d.salesLoss = 0 := by
  refine ⟨_, List.mem_map_of_mem _ (?_ : subDays (startOfDay ⟨1970, 1, 1, 12, 30⟩) (29 - 29) ∈
    periodsFor TimeRange.daily ⟨1970, 1, 1, 12, 30⟩), ?_⟩
  · exact List.mem_map_of_mem _ (List.mem_range.mpr (by norm_num))
  · norm_num [periodResult, costOf, productMap, round2, rnd, toMinutes, daysFromCivil,
      subDays, startOfDay, nextPeriod, jsAddDate, labelOf, List.filter]

/-- C2 counterexample: a window holding one purchase ledger entry with
profit `+5` and one with profit `−5` yields a produced PeriodResult with
`purchaseProfit = 5` and `purchaseLoss = 5`, both nonzero, refuting the
purchase-side exclusivity. -/
theorem C2_counterexample_purchase_sides_both_nonzero :
    ∃ d ∈ profitData TimeRange.hourly ⟨1970, 1, 1, 12, 30⟩ [] [] []
        [⟨725, TransactionType.purchase, 5⟩, ⟨726, TransactionType.purchase, -5⟩],
      ¬(d.purchaseProfit = 0 ∨ d.purchaseLoss = 0) := by
  have hp : jsSetHours (⟨1970, 1, 1, 12, 30⟩ : DateTime)
      ((⟨1970, 1, 1, 12, 30⟩ : DateTime).hour - ((23 : ℤ) - ((23 : ℕ) : ℤ))) ∈
        periodsFor TimeRange.hourly ⟨1970, 1, 1, 12, 30⟩ := by
    decide
  refine ⟨_, List.mem_map_of_mem _ hp, ?_⟩
  norm_num [periodResult, round2, rnd, toMinutes, daysFromCivil,
      jsSetHours, nextPeriod, jsAddHour, labelOf, List.filter]

/-- C2 amended: for every produced PeriodResult at most one of
`salesProfit`, `salesLoss` is nonzero; the purchase pair has no such
exclusivity (a window can hold both positive-profit and negative-profit
purchase transactions, which accumulate independently). -/
theorem C2_amended_sales_split_exclusive (rng : TimeRange) (now : DateTime)
    (products : List Product) (orders : List OrderWithItems)
    (returns : List ReturnWithItems) (accounts : List Account) :
    ∀ d ∈ profitData rng now products orders returns accounts,
      d.salesProfit = 0 ∨ d.salesLoss = 0 := by
  intro d hd
  simp only [profitData, List.mem_map] at hd
  obtain ⟨p, _, rfl⟩ := hd
  exact periodResult_sales_one_sided _ _ _ _ _ _ _

/-- Witness for the amended C2 at a concrete produced window. -/
theorem C2_amended_sales_split_exclusive_witness :
    (periodResult [] [] [] []
        (toMinutes (subYears (startOfYear ⟨1970, 1, 1, 12, 30⟩) (4 - 0)))
        (toMinutes (nextPeriod TimeRange.yearly (subYears (startOfYear ⟨1970, 1, 1, 12, 30⟩) (4 - 0))))
        (labelOf TimeRange.yearly (subYears (startOfYear ⟨1970, 1, 1, 12, 30⟩) (4 - 0)))).salesProfit = 0 ∨
    (periodResult [] [] [] []
        (toMinutes (subYears (startOfYear ⟨1970, 1, 1, 12, 30⟩) (4 - 0)))
        (toMinutes (nextPeriod TimeRange.yearly (subYears (startOfYear ⟨1970, 1, 1, 12, 30⟩) (4 - 0))))
        (labelOf TimeRange.yearly (subYears (startOfYear ⟨1970, 1, 1, 12, 30⟩) (4 - 0)))).salesLoss = 0 := by
  have h0 : (0 : ℕ) ∈ List.range 5 := List.mem_range.mpr (by norm_num)
  exact C2_amended_sales_split_exclusive TimeRange.yearly ⟨1970, 1, 1, 12, 30⟩ [] [] [] [] _
    (List.mem_map_of_mem _ (List.mem_map_of_mem _ h0))

/-! ## Whole-cent inputs and the rounded totals (C3, C9) -/

theorem round2_add_of_cent {a b : ℚ} (ha : Cent a) (hb : Cent b) :
    round2 (a + b) = round2 a + round2 b := by
  rw [round2_cent (ha.add hb), round2_cent ha, round2_cent hb]

theorem productMap_mem {products : List Product} {pid : String} {p : Product}
    (h : productMap products pid = some p) : p ∈ products := by
  have := List.mem_of_find?_eq_some h
  exact List.mem_reverse.mp this

theorem cent_costOf {products : List Product}
    (h : ∀ p ∈ products, Cent (p.costPrice.getD 0)) (pid : String) :
    Cent (costOf products pid) := by
  unfold costOf
  cases hm : productMap products pid with
  | none => exact Cent.zero
  | some p => exact h p (productMap_mem hm)

theorem cent_revenue {orders : List OrderWithItems}
    (h : ∀ o ∈ orders, Cent o.totalAmount) (pred : OrderWithItems → Bool) :
    Cent ((orders.filter pred).map fun o => o.totalAmount).sum := by
  apply Cent.listSum
  intro x hx
  simp only [List.mem_map] at hx
  obtain ⟨o, ho, rfl⟩ := hx
  exact h o (List.mem_of_mem_filter ho)

theorem cent_cogs {products : List Product} (orders : List OrderWithItems)
    (h : ∀ p ∈ products, Cent (p.costPrice.getD 0)) (pred : OrderWithItems → Bool) :
    Cent ((orders.filter pred).map fun o =>
      (o.items.map fun it => costOf products it.productId * (it.quantity : ℚ)).sum).sum := by
  apply Cent.listSum
  intro x hx
  simp only [List.mem_map] at hx
  obtain ⟨o, _, rfl⟩ := hx
  apply Cent.listSum
  intro y hy
  simp only [List.mem_map] at hy
  obtain ⟨it, _, rfl⟩ := hy
  exact (cent_costOf h it.productId).natMul it.quantity

theorem cent_refund {returns : List ReturnWithItems}
    (h : ∀ r ∈ returns, Cent (r.refundAmount.getD 0)) (pred : ReturnWithItems → Bool) :
    Cent ((returns.filter pred).map fun r => r.refundAmount.getD 0).sum := by
  apply Cent.listSum
  intro x hx
  simp only [List.mem_map] at hx
  obtain ⟨r, hr, rfl⟩ := hx
  exact h r (List.mem_of_mem_filter hr)

theorem cent_returned_cost {products : List Product} (returns : List ReturnWithItems)
    (h : ∀ p ∈ products, Cent (p.costPrice.getD 0)) (pred : ReturnWithItems → Bool) :
    Cent ((returns.filter pred).map fun r =>
      (r.items.map fun it => costOf products it.productId * (it.quantity : ℚ)).sum).sum := by
  apply Cent.listSum
  intro x hx
  simp only [List.mem_map] at hx
  obtain ⟨r, _, rfl⟩ := hx
  apply Cent.listSum
  intro y hy
  simp only [List.mem_map] at hy
  obtain ⟨it, _, rfl⟩ := hy
  exact (cent_costOf h it.productId).natMul it.quantity

theorem cent_purchase_side {accounts : List Account}
    (h : ∀ a ∈ accounts, Cent a.profit) (pred : Account → Bool) (f : ℚ → ℚ)
    (hf : ∀ q, Cent q → Cent (f q)) :
    Cent ((accounts.filter pred).map fun a => f a.profit).sum := by
  apply Cent.listSum
  intro x hx
  simp only [List.mem_map] at hx
  obtain ⟨a, ha, rfl⟩ := hx
  exact hf _ (h a (List.mem_of_mem_filter ha))

/-- C3 counterexample: with sub-cent inputs (a purchase ledger profit of
0.004 and an order amount of 0.004 in one window) the finalized fields give
`totalProfit = 0.01` while `purchaseProfit = salesProfit = 0`, refuting the
post-rounding identity. -/
theorem C3_counterexample_rounded_total_differs :
    ∃ d ∈ profitData TimeRange.daily ⟨1970, 1, 1, 12, 30⟩ []
        [⟨10, 1 / 250, []⟩] []
        [⟨15, TransactionType.purchase, 1 / 250⟩],
      ¬ d.totalProfit = d.purchaseProfit + d.salesProfit := by
  refine ⟨_, List.mem_map_of_mem _ (?_ : subDays (startOfDay ⟨1970, 1, 1, 12, 30⟩) (29 - 29) ∈
    periodsFor TimeRange.daily ⟨1970, 1, 1, 12, 30⟩), ?_⟩
  · exact List.mem_map_of_mem _ (List.mem_range.mpr (by norm_num))
  · norm_num [periodResult, costOf, productMap, round2, rnd, toMinutes, daysFromCivil,
      subDays, startOfDay, nextPeriod, jsAddDate, labelOf, List.filter]

/-- C3 amended: when every monetary input (ledger profits, order amounts,
refund amounts, cost bases) is a whole number of cents, the finalized
fields satisfy `totalProfit = purchaseProfit + salesProfit` and
`totalLoss = purchaseLoss + salesLoss` exactly, post-rounding.  (For
sub-cent inputs the identity can fail, because the code rounds
`purchaseProfit`, `salesProfit` and their pre-rounding sum `totalProfit`
independently.) -/
theorem C3_amended_rounded_totals_add_on_cent_inputs (products : List Product)
    (orders : List OrderWithItems) (returns : List ReturnWithItems)
    (accounts : List Account) (start stop : ℤ) (lab : Label)
    (hacc : ∀ a ∈ accounts, Cent a.profit)
    (hord : ∀ o ∈ orders, Cent o.totalAmount)
    (hret : ∀ r ∈ returns, Cent (r.refundAmount.getD 0))
    (hprod : ∀ p ∈ products, Cent (p.costPrice.getD 0)) :
    (periodResult products orders returns accounts start stop lab).totalProfit =
        (periodResult products orders returns accounts start stop lab).purchaseProfit +
          (periodResult products orders returns accounts start stop lab).salesProfit ∧
      (periodResult products orders returns accounts start stop lab).totalLoss =
        (periodResult products orders returns accounts start stop lab).purchaseLoss +
          (periodResult products orders returns accounts start stop lab).salesLoss := by
  have hrev := cent_revenue hord
    (fun o => decide (start ≤ o.createdAt ∧ o.createdAt < stop))
  have hcogs := cent_cogs orders hprod
    (fun o => decide (start ≤ o.createdAt ∧ o.createdAt < stop))
  have href := cent_refund hret
    (fun r => decide (start ≤ r.createdAt ∧ r.createdAt < stop))
  have hrc := cent_returned_cost returns hprod
    (fun r => decide (start ≤ r.createdAt ∧ r.createdAt < stop))
  have hnet : Cent ((((orders.filter fun o => decide (start ≤ o.createdAt ∧ o.createdAt < stop)).map
      fun o => o.totalAmount).sum -
        ((returns.filter fun r => decide (start ≤ r.createdAt ∧ r.createdAt < stop)).map
          fun r => r.refundAmount.getD 0).sum) -
      (((orders.filter fun o => decide (start ≤ o.createdAt ∧ o.createdAt < stop)).map
        fun o => (o.items.map fun it => costOf products it.productId * (it.quantity : ℚ)).sum).sum -
        ((returns.filter fun r => decide (start ≤ r.createdAt ∧ r.createdAt < stop)).map
          fun r => (r.items.map fun it => costOf products it.productId * (it.quantity : ℚ)).sum).sum)) :=
    (hrev.sub href).sub (hcogs.sub hrc)
  have hsd : Cent ((((orders.filter fun o => decide (start ≤ o.createdAt ∧ o.createdAt < stop)).map
      fun o => o.totalAmount).sum -
        ((orders.filter fun o => decide (start ≤ o.createdAt ∧ o.createdAt < stop)).map
          fun o => (o.items.map fun it => costOf products it.productId * (it.quantity : ℚ)).sum).sum)) :=
    hrev.sub hcogs
  have hpp := cent_purchase_side hacc
    (fun a => decide (a.transactionType = .purchase ∧ start ≤ a.transactionDate ∧ a.transactionDate < stop))
    (fun q => if 0 < q then q else 0) (fun q hq => Cent.ite _ hq Cent.zero)
  have hpl := cent_purchase_side hacc
    (fun a => decide (a.transactionType = .purchase ∧ start ≤ a.transactionDate ∧ a.transactionDate < stop))
    (fun q => if q < 0 then -q else 0) (fun q hq => Cent.ite _ hq.neg Cent.zero)
  constructor
  · simp only [periodResult]
    exact round2_add_of_cent hpp (Cent.ite _ hnet (Cent.ite _ Cent.zero (Cent.ite _ hsd Cent.zero)))
  · simp only [periodResult]
    exact round2_add_of_cent hpl (Cent.ite _ Cent.zero (Cent.ite _ hnet.neg (Cent.ite _ hsd.neg Cent.zero)))

/-- Witness for the amended C3 at concrete whole-cent inputs. -/
theorem C3_amended_rounded_totals_add_on_cent_inputs_witness :
    (periodResult [⟨"X", some 10, 0⟩] [⟨10, 100, [⟨"X", 2⟩]⟩] []
        [⟨15, TransactionType.purchase, 5⟩] 0 1440 (Label.daily 1 1)).totalProfit =
      (periodResult [⟨"X", some 10, 0⟩] [⟨10, 100, [⟨"X", 2⟩]⟩] []
        [⟨15, TransactionType.purchase, 5⟩] 0 1440 (Label.daily 1 1)).purchaseProfit +
      (periodResult [⟨"X", some 10, 0⟩] [⟨10, 100, [⟨"X", 2⟩]⟩] []
        [⟨15, TransactionType.purchase, 5⟩] 0 1440 (Label.daily 1 1)).salesProfit := by
  refine (C3_amended_rounded_totals_add_on_cent_inputs _ _ _ _ 0 1440 (Label.daily 1 1)
    ?_ ?_ ?_ ?_).1
  · intro a ha
    fin_cases ha
    exact ⟨500, by norm_num⟩
  · intro o ho
    fin_cases ho
    exact ⟨10000, by norm_num⟩
  · intro r hr
    simp at hr
  · intro p hp
    fin_cases hp
    exact ⟨1000, by norm_num⟩

/-- C9 counterexample: with a sub-cent refund excess (refund total 0.004,
gross order revenue 0) the surfaced revenue is `round2 (−0.004) = 0`, not
strictly negative, because rounding to 2 decimals sends the tiny negative
net revenue to zero. -/
theorem C9_counterexample_subcent_refund_excess_not_negative :
    ∃ d ∈ profitData TimeRange.daily ⟨1970, 1, 1, 12, 30⟩ [] []
        [⟨10, some (1 / 250), []⟩] [],
      d.revenue = 0 ∧ ¬ d.revenue < 0 := by
  refine ⟨_, List.mem_map_of_mem _ (?_ : subDays (startOfDay ⟨1970, 1, 1, 12, 30⟩) (29 - 29) ∈
    periodsFor TimeRange.daily ⟨1970, 1, 1, 12, 30⟩), ?_⟩
  · exact List.mem_map_of_mem _ (List.mem_range.mpr (by norm_num))
  · norm_num [periodResult, round2, rnd, toMinutes, daysFromCivil,
      subDays, startOfDay, nextPeriod, jsAddDate, labelOf, List.filter]

/-- C9 amended: the surfaced `revenue` (resp. `cost`) field is the rounded
netted figure, gross order revenue minus refund total (resp. gross COGS
minus returned cost); when the inputs are whole-cent values and refunds in
a window exceed that window's gross order revenue, the surfaced revenue is
strictly negative (for sub-cent excesses rounding can surface 0); and a
negative summed total revenue yields `profitMargin = 0`, because the guard
tests `totalRevenue > 0`, not `totalRevenue ≠ 0`. -/
theorem C9_amended_netted_revenue_and_margin_guard :
    (∀ (products : List Product) (orders : List OrderWithItems) (returns : List ReturnWithItems)
        (accounts : List Account) (start stop : ℤ) (lab : Label),
      (periodResult products orders returns accounts start stop lab).revenue =
        round2 (((orders.filter fun o => decide (start ≤ o.createdAt ∧ o.createdAt < stop)).map
            fun o => o.totalAmount).sum -
          ((returns.filter fun r => decide (start ≤ r.createdAt ∧ r.createdAt < stop)).map
            fun r => r.refundAmount.getD 0).sum) ∧
      (periodResult products orders returns accounts start stop lab).cost =
        round2 (((orders.filter fun o => decide (start ≤ o.createdAt ∧ o.createdAt < stop)).map
            fun o => (o.items.map fun it => costOf products it.productId * (it.quantity : ℚ)).sum).sum -
          ((returns.filter fun r => decide (start ≤ r.createdAt ∧ r.createdAt < stop)).map
            fun r => (r.items.map fun it => costOf products it.productId * (it.quantity : ℚ)).sum).sum)) ∧
    (∀ (products : List Product) (orders : List OrderWithItems) (returns : List ReturnWithItems)
        (accounts : List Account) (start stop : ℤ) (lab : Label),
      (∀ o ∈ orders, Cent o.totalAmount) →
      (∀ r ∈ returns, Cent (r.refundAmount.getD 0)) →
      ((orders.filter fun o => decide (start ≤ o.createdAt ∧ o.createdAt < stop)).map
          fun o => o.totalAmount).sum <
        ((returns.filter fun r => decide (start ≤ r.createdAt ∧ r.createdAt < stop)).map
          fun r => r.refundAmount.getD 0).sum →
      (periodResult products orders returns accounts start stop lab).revenue < 0) ∧
    (∀ (pd : List ProfitData) (products : List Product),
      (statistics pd products).totalRevenue < 0 → (statistics pd products).profitMargin = 0) := by
  refine ⟨?_, ?_, ?_⟩
  · intro products orders returns accounts start stop lab
    constructor
    · simp only [periodResult]
    · simp only [periodResult]
  · intro products orders returns accounts start stop lab hord hret hlt
    have hnet : Cent (((orders.filter fun o => decide (start ≤ o.createdAt ∧ o.createdAt < stop)).map
        fun o => o.totalAmount).sum -
          ((returns.filter fun r => decide (start ≤ r.createdAt ∧ r.createdAt < stop)).map
            fun r => r.refundAmount.getD 0).sum) :=
      (cent_revenue hord _).sub (cent_refund hret _)
    have hrev : (periodResult products orders returns accounts start stop lab).revenue =
        (((orders.filter fun o => decide (start ≤ o.createdAt ∧ o.createdAt < stop)).map
          fun o => o.totalAmount).sum -
            ((returns.filter fun r => decide (start ≤ r.createdAt ∧ r.createdAt < stop)).map
              fun r => r.refundAmount.getD 0).sum) := by
      simp only [periodResult]
      exact round2_cent hnet
    rw [hrev]
    linarith
  · intro pd products h
    simp only [statistics] at h ⊢
    rw [if_neg (not_lt.mpr h.le)]

/-- Witness for the amended C9: a window whose whole-cent refund (1.00)
exceeds its gross revenue (0) surfaces a strictly negative revenue. -/
theorem C9_amended_netted_revenue_and_margin_guard_witness :
    (periodResult [] [] [⟨10, some 1, []⟩] [] 0 1440 (Label.daily 1 1)).revenue < 0 := by
  refine C9_amended_netted_revenue_and_margin_guard.2.1 [] [] [⟨10, some 1, []⟩] [] 0 1440
    (Label.daily 1 1) ?_ ?_ ?_
  · intro o ho
    simp at ho
  · intro r hr
    fin_cases hr
    exact ⟨100, by norm_num⟩
  · norm_num [List.filter]

/-! ## Calendar arithmetic -/

theorem daysInMonth_pos (y m : ℤ) : 1 ≤ daysInMonth y m := by
  unfold daysInMonth
  split_ifs <;> norm_num

theorem daysInMonth_le (y m : ℤ) : daysInMonth y m ≤ 31 := by
  unfold daysInMonth
  split_ifs <;> norm_num

theorem daysFromCivil_day (y m d : ℤ) : daysFromCivil y m d = daysFromCivil y m 1 + d - 1 := by
  simp only [daysFromCivil]
  ring

theorem dfc_month_step (y m : ℤ) (h1 : 1 ≤ m) (h2 : m ≤ 11) :
    daysFromCivil y m 1 + daysInMonth y m = daysFromCivil y (m + 1) 1 := by
  simp only [daysFromCivil, daysInMonth, isLeap, decide_eq_true_eq]
  interval_cases m <;> norm_num <;> first
    | omega
    | (split_ifs <;> omega)

theorem dfc_december_step (y : ℤ) : daysFromCivil y 12 1 + 31 = daysFromCivil (y + 1) 1 1 := by
  simp only [daysFromCivil]
  norm_num
  omega

theorem dfc_year_length (y : ℤ) :
    daysFromCivil (y + 1) 1 1 - daysFromCivil y 1 1 = if isLeap y then 366 else 365 := by
  simp only [daysFromCivil, isLeap, decide_eq_true_eq]
  norm_num
  split_ifs <;> omega

theorem dfc_year_step_ge (y m d : ℤ) : daysFromCivil y m d + 364 ≤ daysFromCivil (y + 1) m d := by
  simp only [daysFromCivil]
  split_ifs <;> omega

theorem dfc_year_gap {y1 y2 : ℤ} (m d : ℤ) (h : y1 < y2) :
    daysFromCivil y1 m d + 364 ≤ daysFromCivil y2 m d := by
  have key : ∀ n : ℕ, daysFromCivil y1 m d + 364 ≤ daysFromCivil (y1 + 1 + (n : ℤ)) m d := by
    intro n
    induction n with
    | zero => simpa using dfc_year_step_ge y1 m d
    | succ k ih =>
        have h1 := dfc_year_step_ge (y1 + 1 + (k : ℤ)) m d
        have h2 : y1 + 1 + ((k + 1 : ℕ) : ℤ) = (y1 + 1 + (k : ℤ)) + 1 := by push_cast; ring
        rw [h2]
        linarith
  obtain ⟨n, rfl⟩ : ∃ n : ℕ, y2 = y1 + 1 + (n : ℤ) := ⟨(y2 - y1 - 1).toNat, by omega⟩
  exact key n

/-! ## Day-stepping lemmas for the daily granularity -/

theorem decDay_valid {t : DateTime} (h : Valid t) : Valid (decDay t) := by
  have hpos := daysInMonth_pos t.year (t.month - 1)
  have h31 : daysInMonth (t.year - 1) 12 = 31 := by unfold daysInMonth; norm_num
  obtain ⟨h1, h2, h3, h4, h5, h6, h7, h8⟩ := h
  unfold decDay
  split_ifs with hd hm <;>
    refine ⟨?_, ?_, ?_, ?_, ?_, ?_, ?_, ?_⟩ <;> simp <;> omega

theorem decDay_minutes {t : DateTime} (h : Valid t) :
    toMinutes (decDay t) = toMinutes t - 1440 := by
  obtain ⟨h1, h2, h3, h4, h5, h6, h7, h8⟩ := h
  unfold decDay
  split_ifs with hd hm
  · have e1 := daysFromCivil_day t.year t.month (t.day - 1)
    have e2 := daysFromCivil_day t.year t.month t.day
    simp [toMinutes]
    omega
  · have e1 := daysFromCivil_day t.year (t.month - 1) (daysInMonth t.year (t.month - 1))
    have e2 := dfc_month_step t.year (t.month - 1) (by omega) (by omega)
    have e3 : t.month - 1 + 1 = t.month := by ring
    rw [e3] at e2
    have e4 := daysFromCivil_day t.year t.month t.day
    simp [toMinutes]
    omega
  · have hm1 : t.month = 1 := by omega
    have hd1 : t.day = 1 := by omega
    have e1 := daysFromCivil_day (t.year - 1) 12 31
    have e2 := dfc_december_step (t.year - 1)
    have e3 : t.year - 1 + 1 = t.year := by ring
    rw [e3] at e2
    simp [toMinutes, hm1, hd1]
    omega

theorem subDays_valid_minutes {t : DateTime} (h : Valid t) (n : ℕ) :
    Valid (subDays t n) ∧ toMinutes (subDays t n) = toMinutes t - 1440 * (n : ℤ) := by
  induction n with
  | zero => exact ⟨h, by simp [subDays]⟩
  | succ k ih =>
      obtain ⟨hv, hm⟩ := ih
      refine ⟨decDay_valid hv, ?_⟩
      have : subDays t (k + 1) = decDay (subDays t k) := rfl
      rw [this, decDay_minutes hv, hm]
      push_cast
      ring

theorem subDays_hour_minute (t : DateTime) (n : ℕ) :
    (subDays t n).hour = t.hour ∧ (subDays t n).minute = t.minute := by
  induction n with
  | zero => exact ⟨rfl, rfl⟩
  | succ k ih =>
      have : subDays t (k + 1) = decDay (subDays t k) := rfl
      rw [this]
      unfold decDay
      split_ifs <;> simpa using ih

theorem startOfDay_valid {t : DateTime} (h : Valid t) : Valid (startOfDay t) := by
  obtain ⟨h1, h2, h3, h4, h5, h6, h7, h8⟩ := h
  exact ⟨h1, h2, h3, h4, by simp [startOfDay], by simp [startOfDay], by simp [startOfDay],
    by simp [startOfDay]⟩

/-! ## Window instants: bridging the generator to `wstart` -/

theorem toMinutes_jsAddHour (p : DateTime) : toMinutes (jsAddHour p) = toMinutes p + 60 := by
  simp [toMinutes, jsAddHour]
  ring

theorem toMinutes_jsAddDate (p : DateTime) : toMinutes (jsAddDate p) = toMinutes p + 1440 := by
  have e1 := daysFromCivil_day p.year p.month (p.day + 1)
  have e2 := daysFromCivil_day p.year p.month p.day
  simp [toMinutes, jsAddDate]
  omega

theorem hourly_start (now : DateTime) (j : ℕ) :
    toMinutes (jsSetHours now (now.hour - ((23 : ℤ) - (j : ℤ)))) = wstart .hourly now j := by
  simp [toMinutes, jsSetHours, wstart]
  ring

theorem hourly_next (now : DateTime) (j : ℕ) :
    toMinutes (nextPeriod .hourly (jsSetHours now (now.hour - ((23 : ℤ) - (j : ℤ))))) =
      wstart .hourly now (j + 1) := by
  rw [nextPeriod, toMinutes_jsAddHour, hourly_start]
  simp [wstart]
  push_cast
  ring

theorem daily_start (now : DateTime) (h : Valid now) (j : ℕ) (hj : j ≤ 29) :
    toMinutes (subDays (startOfDay now) (29 - j)) = wstart .daily now j := by
  have := (subDays_valid_minutes (startOfDay_valid h) (29 - j)).2
  rw [this, wstart]
  have hc : ((29 - j : ℕ) : ℤ) = 29 - (j : ℤ) := by omega
  rw [hc]

theorem daily_next (now : DateTime) (h : Valid now) (j : ℕ) (hj : j ≤ 29) :
    toMinutes (nextPeriod .daily (subDays (startOfDay now) (29 - j))) =
      wstart .daily now (j + 1) := by
  rw [nextPeriod, toMinutes_jsAddDate, daily_start now h j hj]
  simp [wstart]
  push_cast
  ring

theorem addMonths_monthStart (now : DateTime) (k : ℤ) :
    addMonths (startOfMonth now) k =
      ⟨(12 * now.year + (now.month - 1) + k) / 12,
        (12 * now.year + (now.month - 1) + k) % 12 + 1, 1, 0, 0⟩ := by
  have hpos := daysInMonth_pos ((12 * now.year + (now.month - 1) + k) / 12)
    ((12 * now.year + (now.month - 1) + k) % 12 + 1)
  simp [addMonths, startOfMonth, DateTime.mk.injEq]
  omega

theorem toMinutes_monthStartStruct (μ : ℤ) :
    toMinutes ⟨μ / 12, μ % 12 + 1, 1, 0, 0⟩ = monthStartMin μ := by
  simp [toMinutes, monthStartMin]

theorem jsAddMonth_monthStartStruct (μ : ℤ) :
    jsAddMonth ⟨μ / 12, μ % 12 + 1, 1, 0, 0⟩ =
      ⟨(μ + 1) / 12, (μ + 1) % 12 + 1, 1, 0, 0⟩ := by
  have h : 12 * (μ / 12) + (μ % 12 + 1) = μ + 1 := by omega
  simp [jsAddMonth, DateTime.mk.injEq, h]

theorem monthStartMin_step (μ : ℤ) :
    monthStartMin (μ + 1) = monthStartMin μ + 1440 * daysInMonth (μ / 12) (μ % 12 + 1) := by
  have hy : μ = 12 * (μ / 12) + μ % 12 := by omega
  have hr0 : 0 ≤ μ % 12 := by omega
  have hr11 : μ % 12 ≤ 11 := by omega
  rcases lt_or_eq_of_le hr11 with hlt | heq
  · have e1 : (μ + 1) / 12 = μ / 12 := by omega
    have e2 : (μ + 1) % 12 = μ % 12 + 1 := by omega
    unfold monthStartMin
    rw [e1, e2]
    have := dfc_month_step (μ / 12) (μ % 12 + 1) (by omega) (by omega)
    omega
  · have e1 : (μ + 1) / 12 = μ / 12 + 1 := by omega
    have e2 : (μ + 1) % 12 = 0 := by omega
    unfold monthStartMin
    rw [e1, e2, heq]
    have h12 : daysInMonth (μ / 12) 12 = 31 := by unfold daysInMonth; norm_num
    have := dfc_december_step (μ / 12)
    norm_num
    omega

theorem monthStartMin_lt (μ : ℤ) : monthStartMin μ < monthStartMin (μ + 1) := by
  have h := monthStartMin_step μ
  have := daysInMonth_pos (μ / 12) (μ % 12 + 1)
  omega

theorem monthly_start (now : DateTime) (j : ℕ) (hj : j ≤ 11) :
    toMinutes (subMonths (startOfMonth now) (11 - j)) = wstart .monthly now j := by
  rw [subMonths, addMonths_monthStart]
  have hc : 12 * now.year + (now.month - 1) + -((11 - j : ℕ) : ℤ) =
      12 * now.year + (now.month - 1) - 11 + (j : ℤ) := by omega
  rw [hc, toMinutes_monthStartStruct, wstart]

theorem monthly_next (now : DateTime) (j : ℕ) (hj : j ≤ 11) :
    toMinutes (nextPeriod .monthly (subMonths (startOfMonth now) (11 - j))) =
      wstart .monthly now (j + 1) := by
  rw [nextPeriod, subMonths, addMonths_monthStart]
  have hc : 12 * now.year + (now.month - 1) + -((11 - j : ℕ) : ℤ) =
      12 * now.year + (now.month - 1) - 11 + (j : ℤ) := by omega
  rw [hc, jsAddMonth_monthStartStruct, toMinutes_monthStartStruct, wstart]
  have hc2 : 12 * now.year + (now.month - 1) - 11 + ((j + 1 : ℕ) : ℤ) =
      12 * now.year + (now.month - 1) - 11 + (j : ℤ) + 1 := by push_cast; ring
  rw [hc2]

theorem addYears_yearStart (now : DateTime) (k : ℤ) :
    addYears (startOfYear now) k = ⟨now.year + k, 1, 1, 0, 0⟩ := by
  have h31 : daysInMonth (now.year + k) 1 = 31 := by unfold daysInMonth; norm_num
  simp [addYears, startOfYear, DateTime.mk.injEq, h31]

theorem yearly_start (now : DateTime) (j : ℕ) (hj : j ≤ 4) :
    toMinutes (subYears (startOfYear now) (4 - j)) = wstart .yearly now j := by
  rw [subYears, addYears_yearStart]
  have hc : now.year + -((4 - j : ℕ) : ℤ) = now.year - 4 + (j : ℤ) := by omega
  rw [hc]
  simp [toMinutes, wstart]

theorem yearly_next (now : DateTime) (j : ℕ) (hj : j ≤ 4) :
    toMinutes (nextPeriod .yearly (subYears (startOfYear now) (4 - j))) =
      wstart .yearly now (j + 1) := by
  rw [nextPeriod, subYears, addYears_yearStart]
  have hc : now.year + -((4 - j : ℕ) : ℤ) = now.year - 4 + (j : ℤ) := by omega
  rw [hc, jsAddYear]
  simp [toMinutes, wstart]
  have hc2 : now.year - 4 + ((j : ℤ) + 1) = now.year - 4 + (j : ℤ) + 1 := by ring
  rw [hc2]

theorem wstart_lt (r : TimeRange) (now : DateTime) (j : ℕ) :
    wstart r now j < wstart r now (j + 1) := by
  cases r
  · simp only [wstart]
    omega
  · simp only [wstart]
    omega
  · simp only [wstart]
    have hc2 : 12 * now.year + (now.month - 1) - 11 + ((j + 1 : ℕ) : ℤ) =
        12 * now.year + (now.month - 1) - 11 + (j : ℤ) + 1 := by push_cast; ring
    rw [hc2]
    exact monthStartMin_lt _
  · simp only [wstart]
    have hc2 : now.year - 4 + ((j + 1 : ℕ) : ℤ) = now.year - 4 + (j : ℤ) + 1 := by push_cast; ring
    rw [hc2]
    have := dfc_year_step_ge (now.year - 4 + (j : ℤ)) 1 1
    omega

/-! ## Indexing the generated windows -/

theorem getElem_range_map {α : Type} (g : ℕ → α) (N j : ℕ) (h : j < N) :
    ((List.range N).map g)[j]? = some (g j) := by
  simp [List.getElem?_map, List.getElem?_range, h]

theorem periodsFor_getElem (r : TimeRange) (now : DateTime) (hnow : Valid now)
    (j : ℕ) (hj : j < periodCount r) :
    ∃ p, (periodsFor r now)[j]? = some p ∧ toMinutes p = wstart r now j ∧
      toMinutes (nextPeriod r p) = wstart r now (j + 1) := by
  cases r
  · refine ⟨_, ?_, hourly_start now j, hourly_next now j⟩
    simp only [periodsFor]
    exact getElem_range_map _ 24 j hj
  · refine ⟨_, ?_, daily_start now hnow j (by exact Nat.lt_succ_iff.mp hj),
      daily_next now hnow j (by exact Nat.lt_succ_iff.mp hj)⟩
    simp only [periodsFor]
    exact getElem_range_map _ 30 j hj
  · refine ⟨_, ?_, monthly_start now j (by exact Nat.lt_succ_iff.mp hj),
      monthly_next now j (by exact Nat.lt_succ_iff.mp hj)⟩
    simp only [periodsFor]
    exact getElem_range_map _ 12 j hj
  · refine ⟨_, ?_, yearly_start now j (by exact Nat.lt_succ_iff.mp hj),
      yearly_next now j (by exact Nat.lt_succ_iff.mp hj)⟩
    simp only [periodsFor]
    exact getElem_range_map _ 5 j hj

theorem periodsFor_length (r : TimeRange) (now : DateTime) :
    (periodsFor r now).length = periodCount r := by
  cases r <;> simp only [periodsFor, periodCount, List.length_map, List.length_range]

theorem periodsFor_ne_nil (r : TimeRange) (now : DateTime) : periodsFor r now ≠ [] := by
  intro h
  have := periodsFor_length r now
  rw [h] at this
  cases r <;> simp [periodCount] at this

theorem periodsFor_head_minutes (r : TimeRange) (now : DateTime) (hnow : Valid now)
    (hne : periodsFor r now ≠ []) :
    toMinutes ((periodsFor r now).head hne) = wstart r now 0 := by
  have h0 : (0 : ℕ) < periodCount r := by cases r <;> simp [periodCount]
  obtain ⟨p, hp, hs, _⟩ := periodsFor_getElem r now hnow 0 h0
  have hh : (periodsFor r now)[0]? = some ((periodsFor r now).head hne) := by
    rw [← List.head?_eq_head hne]
    cases hl : periodsFor r now
    · exact absurd hl hne
    · rw [List.getElem?_cons_zero, List.head?_cons]
  rw [hh] at hp
  obtain rfl := Option.some_injective _ hp
  exact hs

theorem periodsFor_getLast (r : TimeRange) (now : DateTime) (hnow : Valid now)
    (hne : periodsFor r now ≠ []) :
    (periodsFor r now)[periodCount r - 1]? = some ((periodsFor r now).getLast hne) := by
  rw [← List.getLast?_eq_getLast _ hne, List.getLast?_eq_getElem?, periodsFor_length]

theorem periodsFor_last_end_minutes (r : TimeRange) (now : DateTime) (hnow : Valid now)
    (hne : periodsFor r now ≠ []) :
    toMinutes (nextPeriod r ((periodsFor r now).getLast hne)) = wstart r now (periodCount r) := by
  have hcount : 1 ≤ periodCount r := by cases r <;> simp [periodCount]
  have hlt : periodCount r - 1 < periodCount r := by omega
  obtain ⟨p, hp, _, hnext⟩ := periodsFor_getElem r now hnow (periodCount r - 1) hlt
  rw [periodsFor_getLast r now hnow hne] at hp
  obtain rfl := (Option.some_injective _ hp).symm
  have harith : periodCount r - 1 + 1 = periodCount r := by omega
  rw [← harith]
  exact hnext

theorem wstart_strictMono (r : TimeRange) (now : DateTime) :
    StrictMono (wstart r now) :=
  strictMono_nat_of_lt_succ (wstart_lt r now)

/-- Any instant inside the union of a strictly increasing family of
half-open windows lies in exactly one of them. -/
theorem exists_unique_window_index (f : ℕ → ℤ) (hf : ∀ i, f i < f (i + 1)) (N : ℕ) (t : ℤ)
    (h1 : f 0 ≤ t) (h2 : t < f N) :
    ∃! j : ℕ, j < N ∧ f j ≤ t ∧ t < f (j + 1) := by
  have hsm : StrictMono f := strictMono_nat_of_lt_succ hf
  have hex : ∀ n : ℕ, t < f n → ∃ j, j < n ∧ f j ≤ t ∧ t < f (j + 1) := by
    intro n
    induction n with
    | zero => intro hb; exact absurd (lt_of_le_of_lt h1 hb) (lt_irrefl _)
    | succ k ih =>
        intro hb
        by_cases hc : t < f k
        · obtain ⟨j, hj, hja, hjb⟩ := ih hc
          exact ⟨j, Nat.lt_succ_of_lt hj, hja, hjb⟩
        · exact ⟨k, Nat.lt_succ_self k, le_of_not_lt hc, hb⟩
  obtain ⟨j, hj1, hj2, hj3⟩ := hex N h2
  refine ⟨j, ⟨hj1, hj2, hj3⟩, ?_⟩
  intro k hk
  by_contra hne
  rcases Nat.lt_or_ge k j with hlt | hge
  · have hmono : f (k + 1) ≤ f j := hsm.monotone (by omega)
    have := hk.2.2
    omega
  · have hkj : j < k := by omega
    have hmono : f (j + 1) ≤ f k := hsm.monotone (by omega)
    have := hk.2.1
    omega

/-! ## Distinctness of window labels -/

theorem nodup_label_map {α : Type} (N : ℕ) (g : ℕ → α) (lab : α → Label)
    (hinj : ∀ i < N, ∀ j < N, lab (g i) = lab (g j) → i = j) :
    (((List.range N).map g).map lab).Nodup := by
  rw [List.map_map]
  apply List.Nodup.map_on ?_ (List.nodup_range N)
  intro i hi j hj hf
  exact hinj i (List.mem_range.mp hi) j (List.mem_range.mp hj) hf

theorem daily_labels_inj (now : DateTime) (hnow : Valid now) :
    ∀ i < 30, ∀ j < 30,
      labelOf .daily (subDays (startOfDay now) (29 - i)) =
        labelOf .daily (subDays (startOfDay now) (29 - j)) → i = j := by
  intro i hi j hj hf
  have hlab : (subDays (startOfDay now) (29 - i)).month =
        (subDays (startOfDay now) (29 - j)).month ∧
      (subDays (startOfDay now) (29 - i)).day = (subDays (startOfDay now) (29 - j)).day := by
    simpa [labelOf, Label.daily.injEq] using hf
  have hmi := daily_start now hnow i (by omega)
  have hmj := daily_start now hnow j (by omega)
  have hhi := subDays_hour_minute (startOfDay now) (29 - i)
  have hhj := subDays_hour_minute (startOfDay now) (29 - j)
  have hfi : toMinutes (subDays (startOfDay now) (29 - i)) =
      1440 * daysFromCivil (subDays (startOfDay now) (29 - i)).year
        (subDays (startOfDay now) (29 - i)).month (subDays (startOfDay now) (29 - i)).day := by
    rw [toMinutes, hhi.1, hhi.2]
    simp [startOfDay]
  have hfj : toMinutes (subDays (startOfDay now) (29 - j)) =
      1440 * daysFromCivil (subDays (startOfDay now) (29 - j)).year
        (subDays (startOfDay now) (29 - j)).month (subDays (startOfDay now) (29 - j)).day := by
    rw [toMinutes, hhj.1, hhj.2]
    simp [startOfDay]
  rw [← hlab.1, ← hlab.2] at hfj
  simp only [wstart] at hmi hmj
  by_cases hy : (subDays (startOfDay now) (29 - i)).year =
      (subDays (startOfDay now) (29 - j)).year
  · rw [← hy] at hfj
    omega
  · rcases Ne.lt_or_lt hy with h | h
    · have hgap := dfc_year_gap (subDays (startOfDay now) (29 - i)).month
        (subDays (startOfDay now) (29 - i)).day h
      omega
    · have hgap := dfc_year_gap (subDays (startOfDay now) (29 - i)).month
        (subDays (startOfDay now) (29 - i)).day h
      omega

theorem periodsFor_labels_nodup (r : TimeRange) (now : DateTime) (hnow : Valid now) :
    ((periodsFor r now).map (labelOf r)).Nodup := by
  cases r
  · simp only [periodsFor]
    apply nodup_label_map
    intro i hi j hj hf
    simp only [labelOf, jsSetHours, Label.hourly.injEq] at hf
    omega
  · simp only [periodsFor]
    exact nodup_label_map 30 _ _ (daily_labels_inj now hnow)
  · simp only [periodsFor]
    apply nodup_label_map
    intro i hi j hj hf
    simp only [subMonths, addMonths_monthStart, labelOf, Label.monthly.injEq] at hf
    omega
  · simp only [periodsFor]
    apply nodup_label_map
    intro i hi j hj hf
    simp only [subYears, addYears_yearStart, labelOf, Label.yearly.injEq] at hf
    omega

/-- C6: for every granularity and valid reference instant the generated
windows are contiguous and non-overlapping (each window's end instant is
the next window's start instant), the labels surfaced in the produced
PeriodResults are exactly the window labels, and those labels are pairwise
distinct within one run. -/
theorem C6_windows_contiguous_and_labels_distinct (r : TimeRange) (now : DateTime)
    (hnow : Valid now) :
    (∀ j : ℕ, j + 1 < periodCount r →
      ((periodsFor r now)[j]?).map (fun p => toMinutes (nextPeriod r p)) =
        ((periodsFor r now)[j + 1]?).map toMinutes) ∧
    (∀ (products : List Product) (orders : List OrderWithItems)
        (returns : List ReturnWithItems) (accounts : List Account),
      (profitData r now products orders returns accounts).map (fun d => d.period) =
        (periodsFor r now).map (labelOf r)) ∧
    ((periodsFor r now).map (labelOf r)).Nodup := by
  refine ⟨?_, ?_, periodsFor_labels_nodup r now hnow⟩
  · intro j hj
    obtain ⟨p, hp, _, hnext⟩ := periodsFor_getElem r now hnow j (by omega)
    obtain ⟨q, hq, hqs, _⟩ := periodsFor_getElem r now hnow (j + 1) hj
    rw [hp, hq]
    simp [hnext, hqs]
  · intro products orders returns accounts
    simp only [profitData, List.map_map]
    rfl

/-- Witness for C6 at a concrete valid reference instant. -/
theorem C6_windows_contiguous_and_labels_distinct_witness :
    ((periodsFor TimeRange.daily ⟨1970, 1, 1, 12, 30⟩).map
      (labelOf TimeRange.daily)).Nodup :=
  (C6_windows_contiguous_and_labels_distinct TimeRange.daily ⟨1970, 1, 1, 12, 30⟩
    (by decide)).2.2

/-- C5: for every valid reference instant the generator yields exactly
24/30/12/5 windows (hourly/daily/monthly/yearly); windows are oldest-first
(start instants strictly increase) with each end instant the start plus one
unit; the run is anchored: the last hourly window is the hour containing
the reference instant, and the last daily/monthly/yearly window starts at
the start of the reference instant's day/month/year; hourly and daily
steps are 60 and 1440 minutes, while monthly windows start on the first of
a month and advance by that month's length (calendar-aware) and yearly
windows start on Jan 1 and advance by 365 or 366 days according to leap
years. -/
theorem C5_window_counts_anchoring_and_calendar_steps (now : DateTime) (hnow : Valid now) :
    ((periodsFor .hourly now).length = 24 ∧
      (periodsFor .daily now).length = 30 ∧
      (periodsFor .monthly now).length = 12 ∧
      (periodsFor .yearly now).length = 5) ∧
    (∀ r : TimeRange, ∀ j : ℕ, j < periodCount r →
      ((periodsFor r now)[j]?).map toMinutes = some (wstart r now j) ∧
      ((periodsFor r now)[j]?).map (fun p => toMinutes (nextPeriod r p)) =
        some (wstart r now (j + 1)) ∧
      wstart r now j < wstart r now (j + 1)) ∧
    ((periodsFor .hourly now)[23]? = some (jsSetHours now now.hour) ∧
      wstart .hourly now 23 ≤ toMinutes now ∧ toMinutes now < wstart .hourly now 24 ∧
      (periodsFor .daily now)[29]? = some (startOfDay now) ∧
      (periodsFor .monthly now)[11]? = some (startOfMonth now) ∧
      (periodsFor .yearly now)[4]? = some (startOfYear now)) ∧
    ((∀ j : ℕ, wstart .hourly now (j + 1) = wstart .hourly now j + 60) ∧
      (∀ j : ℕ, wstart .daily now (j + 1) = wstart .daily now j + 1440) ∧
      (∀ j : ℕ, j < 12 → ∃ y m : ℤ,
        (periodsFor .monthly now)[j]? = some ⟨y, m, 1, 0, 0⟩ ∧ 1 ≤ m ∧ m ≤ 12 ∧
        wstart .monthly now (j + 1) = wstart .monthly now j + 1440 * daysInMonth y m) ∧
      (∀ j : ℕ, j < 5 → ∃ y : ℤ,
        (periodsFor .yearly now)[j]? = some ⟨y, 1, 1, 0, 0⟩ ∧
        wstart .yearly now (j + 1) = wstart .yearly now j +
          1440 * (if isLeap y then 366 else 365))) := by
  obtain ⟨h1, h2, h3, h4, h5, h6, h7, h8⟩ := hnow
  refine ⟨⟨periodsFor_length _ now, periodsFor_length _ now,
    periodsFor_length _ now, periodsFor_length _ now⟩, ?_, ⟨?_, ?_, ?_, ?_, ?_, ?_⟩,
    ⟨?_, ?_, ?_, ?_⟩⟩
  · intro r j hj
    obtain ⟨p, hp, hs, hn⟩ := periodsFor_getElem r now ⟨h1, h2, h3, h4, h5, h6, h7, h8⟩ j hj
    rw [hp]
    exact ⟨by simp [hs], by simp [hn], wstart_lt r now j⟩
  · simp only [periodsFor]
    rw [getElem_range_map _ 24 23 (by norm_num)]
    norm_num
  · simp only [wstart, toMinutes]
    push_cast
    omega
  · simp only [wstart, toMinutes]
    push_cast
    omega
  · simp only [periodsFor]
    rw [getElem_range_map _ 30 29 (by norm_num)]
    norm_num [subDays]
  · simp only [periodsFor]
    rw [getElem_range_map _ 12 11 (by norm_num), subMonths, addMonths_monthStart]
    have e : 12 * now.year + (now.month - 1) + -((11 - 11 : ℕ) : ℤ) =
        12 * now.year + (now.month - 1) := by norm_num
    rw [e]
    have ey : (12 * now.year + (now.month - 1)) / 12 = now.year := by omega
    have em : (12 * now.year + (now.month - 1)) % 12 + 1 = now.month := by omega
    rw [ey, em]
    simp [startOfMonth, DateTime.mk.injEq]
  · simp only [periodsFor]
    rw [getElem_range_map _ 5 4 (by norm_num), subYears, addYears_yearStart]
    have e : now.year + -((4 - 4 : ℕ) : ℤ) = now.year := by norm_num
    rw [e]
    simp [startOfYear, DateTime.mk.injEq]
  · intro j
    simp only [wstart]
    push_cast
    ring
  · intro j
    simp only [wstart]
    push_cast
    ring
  · intro j hj
    refine ⟨(12 * now.year + (now.month - 1) - 11 + (j : ℤ)) / 12,
      (12 * now.year + (now.month - 1) - 11 + (j : ℤ)) % 12 + 1, ?_, by omega, by omega, ?_⟩
    · simp only [periodsFor]
      rw [getElem_range_map _ 12 j hj, subMonths, addMonths_monthStart]
      have e : 12 * now.year + (now.month - 1) + -((11 - j : ℕ) : ℤ) =
          12 * now.year + (now.month - 1) - 11 + (j : ℤ) := by omega
      rw [e]
    · simp only [wstart]
      have e2 : 12 * now.year + (now.month - 1) - 11 + ((j + 1 : ℕ) : ℤ) =
          (12 * now.year + (now.month - 1) - 11 + (j : ℤ)) + 1 := by push_cast; ring
      rw [e2, monthStartMin_step]
  · intro j hj
    refine ⟨now.year - 4 + (j : ℤ), ?_, ?_⟩
    · simp only [periodsFor]
      rw [getElem_range_map _ 5 j hj, subYears, addYears_yearStart]
      have e : now.year + -((4 - j : ℕ) : ℤ) = now.year - 4 + (j : ℤ) := by omega
      rw [e]
    · simp only [wstart]
      have e2 : now.year - 4 + ((j + 1 : ℕ) : ℤ) = (now.year - 4 + (j : ℤ)) + 1 := by
        push_cast; ring
      rw [e2]
      have := dfc_year_length (now.year - 4 + (j : ℤ))
      omega

/-- Witness for C5 at a concrete valid reference instant. -/
theorem C5_window_counts_anchoring_and_calendar_steps_witness :
    (periodsFor TimeRange.hourly ⟨1970, 1, 1, 12, 30⟩).length = 24 ∧
    (periodsFor TimeRange.daily ⟨1970, 1, 1, 12, 30⟩).length = 30 ∧
    (periodsFor TimeRange.monthly ⟨1970, 1, 1, 12, 30⟩).length = 12 ∧
    (periodsFor TimeRange.yearly ⟨1970, 1, 1, 12, 30⟩).length = 5 :=
  (C5_window_counts_anchoring_and_calendar_steps ⟨1970, 1, 1, 12, 30⟩ (by decide)).1

/-- C4: the filtering of the three sources is half-open (`start ≤ instant
< end`), so every instant inside the union of the generated windows falls
in exactly one window, and every order, return, and purchase-category
ledger transaction with such an instant lands in exactly one window's
filtered subset (the filters are the ones `profitData` applies per
window): never two windows, never zero. -/
theorem C4_half_open_partition_of_records (r : TimeRange) (now : DateTime) (hnow : Valid now) :
    (∀ t : ℤ, wstart r now 0 ≤ t → t < wstart r now (periodCount r) →
      ∃! j : ℕ, j < periodCount r ∧ wstart r now j ≤ t ∧ t < wstart r now (j + 1)) ∧
    (∀ (orders : List OrderWithItems) (o : OrderWithItems), o ∈ orders →
      wstart r now 0 ≤ o.createdAt → o.createdAt < wstart r now (periodCount r) →
      ∃! j : ℕ, j < periodCount r ∧ ∃ p, (periodsFor r now)[j]? = some p ∧
        o ∈ orders.filter fun o2 =>
          decide (toMinutes p ≤ o2.createdAt ∧ o2.createdAt < toMinutes (nextPeriod r p))) ∧
    (∀ (returns : List ReturnWithItems) (ret : ReturnWithItems), ret ∈ returns →
      wstart r now 0 ≤ ret.createdAt → ret.createdAt < wstart r now (periodCount r) →
      ∃! j : ℕ, j < periodCount r ∧ ∃ p, (periodsFor r now)[j]? = some p ∧
        ret ∈ returns.filter fun r2 =>
          decide (toMinutes p ≤ r2.createdAt ∧ r2.createdAt < toMinutes (nextPeriod r p))) ∧
    (∀ (accounts : List Account) (a : Account), a ∈ accounts →
      a.transactionType = .purchase →
      wstart r now 0 ≤ a.transactionDate → a.transactionDate < wstart r now (periodCount r) →
      ∃! j : ℕ, j < periodCount r ∧ ∃ p, (periodsFor r now)[j]? = some p ∧
        a ∈ accounts.filter fun a2 => decide (a2.transactionType = .purchase ∧
          toMinutes p ≤ a2.transactionDate ∧ a2.transactionDate < toMinutes (nextPeriod r p))) := by
  refine ⟨?_, ?_, ?_, ?_⟩
  · intro t hlo hhi
    exact exists_unique_window_index (wstart r now) (wstart_lt r now) (periodCount r) t hlo hhi
  · intro orders o ho hlo hhi
    obtain ⟨j, ⟨hj, hja, hjb⟩, huniq⟩ := exists_unique_window_index (wstart r now)
      (wstart_lt r now) (periodCount r) o.createdAt hlo hhi
    obtain ⟨p, hp, hps, hpn⟩ := periodsFor_getElem r now hnow j hj
    refine ⟨j, ⟨hj, p, hp, ?_⟩, ?_⟩
    · rw [List.mem_filter]
      refine ⟨ho, ?_⟩
      rw [hps, hpn]
      simp only [decide_eq_true_eq]
      exact ⟨hja, hjb⟩
    · rintro k ⟨hk, q, hq, hmem⟩
      obtain ⟨q', hq', hqs, hqn⟩ := periodsFor_getElem r now hnow k hk
      rw [hq] at hq'
      obtain rfl : q = q' := Option.some_injective _ hq'
      rw [List.mem_filter, decide_eq_true_eq, hqs, hqn] at hmem
      exact huniq k ⟨hk, hmem.2.1, hmem.2.2⟩
  · intro returns ret hret hlo hhi
    obtain ⟨j, ⟨hj, hja, hjb⟩, huniq⟩ := exists_unique_window_index (wstart r now)
      (wstart_lt r now) (periodCount r) ret.createdAt hlo hhi
    obtain ⟨p, hp, hps, hpn⟩ := periodsFor_getElem r now hnow j hj
    refine ⟨j, ⟨hj, p, hp, ?_⟩, ?_⟩
    · rw [List.mem_filter]
      refine ⟨hret, ?_⟩
      rw [hps, hpn]
      simp only [decide_eq_true_eq]
      exact ⟨hja, hjb⟩
    · rintro k ⟨hk, q, hq, hmem⟩
      obtain ⟨q', hq', hqs, hqn⟩ := periodsFor_getElem r now hnow k hk
      rw [hq] at hq'
      obtain rfl : q = q' := Option.some_injective _ hq'
      rw [List.mem_filter, decide_eq_true_eq, hqs, hqn] at hmem
      exact huniq k ⟨hk, hmem.2.1, hmem.2.2⟩
  · intro accounts a ha hty hlo hhi
    obtain ⟨j, ⟨hj, hja, hjb⟩, huniq⟩ := exists_unique_window_index (wstart r now)
      (wstart_lt r now) (periodCount r) a.transactionDate hlo hhi
    obtain ⟨p, hp, hps, hpn⟩ := periodsFor_getElem r now hnow j hj
    refine ⟨j, ⟨hj, p, hp, ?_⟩, ?_⟩
    · rw [List.mem_filter]
      refine ⟨ha, ?_⟩
      rw [hps, hpn]
      simp only [decide_eq_true_eq]
      exact ⟨hty, hja, hjb⟩
    · rintro k ⟨hk, q, hq, hmem⟩
      obtain ⟨q', hq', hqs, hqn⟩ := periodsFor_getElem r now hnow k hk
      rw [hq] at hq'
      obtain rfl : q = q' := Option.some_injective _ hq'
      rw [List.mem_filter, decide_eq_true_eq, hqs, hqn] at hmem
      exact huniq k ⟨hk, hmem.2.2.1, hmem.2.2.2⟩

/-- Witness for C4 at a concrete record and reference instant: the order at
instant 10 inside the daily span is assigned to exactly one window. -/
theorem C4_half_open_partition_of_records_witness :
    ∃! j : ℕ, j < periodCount TimeRange.daily ∧
      ∃ p, (periodsFor TimeRange.daily ⟨1970, 1, 1, 12, 30⟩)[j]? = some p ∧
        (⟨10, 100, []⟩ : OrderWithItems) ∈
          ([⟨10, 100, []⟩] : List OrderWithItems).filter fun o2 =>
            decide (toMinutes p ≤ o2.createdAt ∧
              o2.createdAt < toMinutes (nextPeriod TimeRange.daily p)) := by
  refine (C4_half_open_partition_of_records TimeRange.daily ⟨1970, 1, 1, 12, 30⟩
    (by decide)).2.1 [⟨10, 100, []⟩] ⟨10, 100, []⟩ (by simp) ?_ ?_
  · norm_num [wstart, toMinutes, startOfDay, daysFromCivil]
  · norm_num [wstart, toMinutes, startOfDay, daysFromCivil, periodCount]

theorem periodsFor_mem_window (r : TimeRange) (now : DateTime) (hnow : Valid now)
    {p : DateTime} (hp : p ∈ periodsFor r now) :
    ∃ j : ℕ, j < periodCount r ∧ toMinutes p = wstart r now j ∧
      toMinutes (nextPeriod r p) = wstart r now (j + 1) := by
  obtain ⟨j, hj⟩ := List.mem_iff_getElem?.mp hp
  have hjb : j < periodCount r := by
    rw [← periodsFor_length r now]
    exact (List.getElem?_eq_some.mp hj).1
  obtain ⟨q, hq, hqs, hqn⟩ := periodsFor_getElem r now hnow j hjb
  rw [hj] at hq
  obtain rfl : p = q := Option.some_injective _ hq
  exact ⟨j, hjb, hqs, hqn⟩

theorem out_of_span_not_in_window (r : TimeRange) (now : DateTime) (hnow : Valid now)
    {t : ℤ} (h : t < wstart r now 0 ∨ wstart r now (periodCount r) ≤ t)
    {p : DateTime} (hp : p ∈ periodsFor r now) :
    ¬ (toMinutes p ≤ t ∧ t < toMinutes (nextPeriod r p)) := by
  obtain ⟨j, hj, hs, hn⟩ := periodsFor_mem_window r now hnow hp
  have hmono := (wstart_strictMono r now).monotone
  have h0 : wstart r now 0 ≤ wstart r now j := hmono (Nat.zero_le j)
  have hN : wstart r now (j + 1) ≤ wstart r now (periodCount r) := hmono (by omega)
  rintro ⟨ha, hb⟩
  rw [hs] at ha
  rw [hn] at hb
  rcases h with h | h <;> omega

/-- C10: a record (order, return, or ledger transaction) whose instant lies
strictly before the earliest generated window's start, or at/after the
latest window's end, changes nothing: prepending it to its input list
leaves every PeriodResult and every summary statistic identical, silently
rather than by error. -/
theorem C10_out_of_span_records_silently_ignored (r : TimeRange) (now : DateTime)
    (hnow : Valid now) (hne : periodsFor r now ≠ [])
    (products : List Product) (orders : List OrderWithItems)
    (returns : List ReturnWithItems) (accounts : List Account) :
    (∀ o : OrderWithItems,
      o.createdAt < toMinutes ((periodsFor r now).head hne) ∨
        toMinutes (nextPeriod r ((periodsFor r now).getLast hne)) ≤ o.createdAt →
      profitData r now products (o :: orders) returns accounts =
        profitData r now products orders returns accounts ∧
      statistics (profitData r now products (o :: orders) returns accounts) products =
        statistics (profitData r now products orders returns accounts) products) ∧
    (∀ ret : ReturnWithItems,
      ret.createdAt < toMinutes ((periodsFor r now).head hne) ∨
        toMinutes (nextPeriod r ((periodsFor r now).getLast hne)) ≤ ret.createdAt →
      profitData r now products orders (ret :: returns) accounts =
        profitData r now products orders returns accounts ∧
      statistics (profitData r now products orders (ret :: returns) accounts) products =
        statistics (profitData r now products orders returns accounts) products) ∧
    (∀ a : Account,
      a.transactionDate < toMinutes ((periodsFor r now).head hne) ∨
        toMinutes (nextPeriod r ((periodsFor r now).getLast hne)) ≤ a.transactionDate →
      profitData r now products orders returns (a :: accounts) =
        profitData r now products orders returns accounts ∧
      statistics (profitData r now products orders returns (a :: accounts)) products =
        statistics (profitData r now products orders returns accounts) products) := by
  have hhead := periodsFor_head_minutes r now hnow hne
  have hlast := periodsFor_last_end_minutes r now hnow hne
  refine ⟨?_, ?_, ?_⟩
  · intro o h
    rw [hhead, hlast] at h
    have hpd : profitData r now products (o :: orders) returns accounts =
        profitData r now products orders returns accounts := by
      unfold profitData
      apply List.map_congr_left
      intro p hp
      unfold periodResult
      rw [List.filter_cons_of_neg (by
        simpa using out_of_span_not_in_window r now hnow h hp)]
    exact ⟨hpd, by rw [hpd]⟩
  · intro ret h
    rw [hhead, hlast] at h
    have hpd : profitData r now products orders (ret :: returns) accounts =
        profitData r now products orders returns accounts := by
      unfold profitData
      apply List.map_congr_left
      intro p hp
      unfold periodResult
      rw [List.filter_cons_of_neg (by
        simpa using out_of_span_not_in_window r now hnow h hp)]
    exact ⟨hpd, by rw [hpd]⟩
  · intro a h
    rw [hhead, hlast] at h
    have hpd : profitData r now products orders returns (a :: accounts) =
        profitData r now products orders returns accounts := by
      unfold profitData
      apply List.map_congr_left
      intro p hp
      unfold periodResult
      rw [List.filter_cons_of_neg (by
        simp only [decide_eq_true_eq, not_and]
        intro _
        exact fun h1 h2 =>
          out_of_span_not_in_window r now hnow h hp ⟨h1, h2⟩)]
    exact ⟨hpd, by rw [hpd]⟩

/-- Witness for C10: an order far past the last hourly window's end leaves
the report untouched. -/
theorem C10_out_of_span_records_silently_ignored_witness :
    profitData TimeRange.hourly ⟨1970, 1, 1, 12, 30⟩ [] [⟨10000, 100, []⟩] [] [] =
      profitData TimeRange.hourly ⟨1970, 1, 1, 12, 30⟩ [] [] [] [] :=
  ((C10_out_of_span_records_silently_ignored TimeRange.hourly ⟨1970, 1, 1, 12, 30⟩
    (by decide) (by decide) [] [] [] []).1 ⟨10000, 100, []⟩ (Or.inr (by decide))).1

end StockClient
